import Mathlib

/-!
Verification of the `ai` GEF/GDB command (`scripts/ai.py`).

The development shallowly embeds the pure core of the script:
the conversation-history state machine of `AI.do_invoke`, the prompt
builders (`build_prompt`, `build_context_prompt_body`, `flatten_prompt`),
the ANSI stripper (`strip_colors`), the transport dispatcher (`query`)
and the alternate-vendor response handler (`query_anthropic`).

Calls into the host debugger (`gdb.execute`) and the network are opaque
text producers; their outputs are parameters of the embedded functions
(collected in `GdbContext` for the context snapshot, and in
`AnthropicPayload` for the vendor response).
-/

namespace GefAi

/-- The escape character (0x1b) that opens an ANSI color sequence. -/
def escChar : Char := Char.ofNat 27

/-- The character terminating an ANSI color sequence in `strip_colors`. -/
def mChar : Char := Char.ofNat 109

/-- A single-quote character, used to spell the register-block label. -/
def squote : String := String.mk [Char.ofNat 39]

/-- A backtick character; three of them form a Markdown fence. -/
def btick : Char := Char.ofNat 96

/-- Python substring membership test `sub in s`, used by the dispatcher
(`"turbo" in model`) and by the sentinel test (`"No symbol table info
available" in args`). -/
def isPrefixCheck : List Char → List Char → Bool
  | [], _ => true
  | _ :: _, [] => false
  | a :: as, b :: bs => a = b && isPrefixCheck as bs

/-- Whether `needle` occurs contiguously inside the second list. -/
def isInfixCheck (needle : List Char) : List Char → Bool
  | [] => isPrefixCheck needle []
  | c :: rest => isPrefixCheck needle (c :: rest) || isInfixCheck needle rest

/-- `strContains s sub` models the Python membership test of `sub` in `s`. -/
def strContains (s sub : String) : Bool := isInfixCheck sub.toList s.toList

/-- The character class `[^m]` of the color-stripping regex. -/
def nonM (x : Char) : Bool := x ≠ mChar

/-- Fueled worker for `strip_colors`, implementing the substitution
`re.sub` of the pattern ESC `[^m]*` `m` with the empty string (line 188
of `scripts/ai.py`): scanning left to right, an ESC that has some later
`mChar` opens a match that swallows everything up to and including the
first such `mChar`; an ESC with no later `mChar` cannot match and is
kept. The fuel is the length of the list, which bounds the recursion. -/
def stripColorsFuel : Nat → List Char → List Char
  | _, [] => []
  | 0, l => l
  | Nat.succ fuel, c :: rest =>
    if c = escChar then
      match rest.dropWhile nonM with
      | [] => c :: stripColorsFuel fuel rest
      | _ :: tail => stripColorsFuel fuel tail
    else
      c :: stripColorsFuel fuel rest

/-- `strip_colors` (lines 186-188): remove all ANSI color codes. -/
def strip_colors (text : String) : String :=
  String.mk (stripColorsFuel text.toList.length text.toList)

/-- Whether a character list contains an occurrence of the ANSI pattern
`ESC [^m]* m`, i.e. an ESC character with some `mChar` after it. -/
def containsAnsi : List Char → Bool
  | [] => false
  | c :: rest => (decide (c = escChar) && decide (mChar ∈ rest)) || containsAnsi rest

theorem stripColorsFuel_cons_keep (fuel : Nat) (c : Char) (rest : List Char)
    (hnom : rest.dropWhile nonM = []) :
    stripColorsFuel (fuel + 1) (c :: rest) = c :: stripColorsFuel fuel rest := by
  by_cases hc : c = escChar
  · simp [stripColorsFuel, hc, hnom]
  · simp [stripColorsFuel, hc]

theorem stripColorsFuel_cons_esc (fuel : Nat) (rest x : List Char) (a : Char)
    (hdrop : rest.dropWhile nonM = a :: x) :
    stripColorsFuel (fuel + 1) (escChar :: rest) = stripColorsFuel fuel x := by
  simp [stripColorsFuel, hdrop]

theorem stripColorsFuel_cons_noesc (fuel : Nat) (c : Char) (rest : List Char)
    (hc : c ≠ escChar) :
    stripColorsFuel (fuel + 1) (c :: rest) = c :: stripColorsFuel fuel rest := by
  simp [stripColorsFuel, hc]

theorem stripColorsFuel_sublist : ∀ (fuel : Nat) (l : List Char),
    (stripColorsFuel fuel l).Sublist l := by
  intro fuel
  induction fuel with
  | zero =>
    intro l
    cases l with
    | nil => simp [stripColorsFuel]
    | cons c rest => simp [stripColorsFuel]
  | succ fuel ih =>
    intro l
    cases l with
    | nil => simp [stripColorsFuel]
    | cons c rest =>
      by_cases hc : c = escChar
      · subst hc
        cases hdrop : rest.dropWhile nonM with
        | nil =>
          rw [stripColorsFuel_cons_keep fuel _ rest hdrop]
          exact (ih rest).cons₂ _
        | cons a x =>
          rw [stripColorsFuel_cons_esc fuel rest x a hdrop]
          have h1 : (stripColorsFuel fuel x).Sublist x := ih x
          have h2 : x.Sublist (rest.dropWhile nonM) := by
            rw [hdrop]; exact List.tail_sublist (a :: x)
          have h3 : (rest.dropWhile nonM).Sublist rest :=
            List.dropWhile_sublist _
          exact ((h1.trans h2).trans h3).cons _
      · rw [stripColorsFuel_cons_noesc fuel c rest hc]
        exact (ih rest).cons₂ c

theorem containsAnsi_stripColorsFuel : ∀ (fuel : Nat) (l : List Char),
    l.length ≤ fuel → containsAnsi (stripColorsFuel fuel l) = false := by
  intro fuel
  induction fuel with
  | zero =>
    intro l hl
    have : l = [] := List.length_eq_zero.mp (Nat.le_zero.mp hl)
    subst this
    simp [stripColorsFuel, containsAnsi]
  | succ fuel ih =>
    intro l hl
    cases l with
    | nil => simp [stripColorsFuel, containsAnsi]
    | cons c rest =>
      have hrest : rest.length ≤ fuel := by
        simpa [List.length_cons, Nat.succ_le_succ_iff] using hl
      by_cases hc : c = escChar
      · subst hc
        cases hdrop : rest.dropWhile nonM with
        | nil =>
          rw [stripColorsFuel_cons_keep fuel _ rest hdrop]
          have hnom : ∀ y ∈ rest, y ≠ mChar := by
            intro y hy
            have := List.dropWhile_eq_nil_iff.mp hdrop y hy
            intro hym
            simp [nonM, hym] at this
          have hsub := stripColorsFuel_sublist fuel rest
          have hnom2 : mChar ∉ stripColorsFuel fuel rest := by
            intro hm
            exact hnom mChar (hsub.subset hm) rfl
          simp [containsAnsi, hnom2, ih rest hrest]
        | cons a x =>
          rw [stripColorsFuel_cons_esc fuel rest x a hdrop]
          have hlen : x.length ≤ fuel := by
            have h1 : (a :: x).length ≤ rest.length := by
              rw [← hdrop]
              exact (List.dropWhile_sublist _).length_le
            simp only [List.length_cons] at h1
            omega
          exact ih x hlen
      · rw [stripColorsFuel_cons_noesc fuel c rest hc]
        simp [containsAnsi, hc, ih rest hrest]

/-- The full claim-facing fact: the output of `strip_colors` contains no
ANSI escape sequence. -/
theorem strip_colors_no_ansi (text : String) :
    containsAnsi (strip_colors text).toList = false := by
  show containsAnsi (stripColorsFuel text.toList.length text.toList) = false
  exact containsAnsi_stripColorsFuel _ _ (Nat.le_refl _)

/-- The whitespace characters removed by the Python string strip method:
space, tab, newline, carriage return, vertical tab, form feed. -/
def pySpace (c : Char) : Bool :=
  c = Char.ofNat 32 || c = Char.ofNat 9 || c = Char.ofNat 10 ||
  c = Char.ofNat 13 || c = Char.ofNat 11 || c = Char.ofNat 12

/-- Python `s.strip()`: remove whitespace from both ends. -/
def py_strip (s : String) : String :=
  String.mk (((s.toList.dropWhile pySpace).reverse.dropWhile pySpace).reverse)

/-- Python `s.startswith(pre)`. -/
def strStartsWith (s pre : String) : Bool := isPrefixCheck pre.toList s.toList

/-- Python truthiness of an optional string: `None` and the empty string
are falsy, everything else is truthy. -/
def truthyOpt : Option String → Bool
  | none => false
  | some s => !s.isEmpty

/-- An opening square bracket. -/
def lbChar : Char := Char.ofNat 91

/-- A closing square bracket. -/
def rbChar : Char := Char.ofNat 93

/-- The newline character (which `.` of a Python regex never matches). -/
def nlChar : Char := Char.ofNat 10

/-- Character class of everything but a closing bracket. -/
def nonRB (x : Char) : Bool := x ≠ rbChar

/-- Character class of everything but a newline. -/
def nonNL (x : Char) : Bool := x ≠ nlChar

/-- `re.search` of the pattern `\[(.*)\]` (line 97 of `scripts/ai.py`),
returning capture group 1: the first opening bracket that has a closing
bracket later on the same line starts the match, and the greedy `.*`
extends the capture to just before the last closing bracket on that
line. `none` models a failed search (`AttributeError` on `.group`). -/
def searchBrackets : List Char → Option (List Char)
  | [] => none
  | c :: rest =>
    if c = lbChar then
      let line := rest.takeWhile nonNL
      if line.contains rbChar then
        some ((line.reverse.dropWhile nonRB).tail.reverse)
      else searchBrackets rest
    else searchBrackets rest

/-- Lines 89-99 of `scripts/ai.py`: the flags text is `None` when the
`info registers eflags` call raised; otherwise, when truthy, the
bracketed sub-field is extracted, a failed search leaving the raw text
in place. -/
def flagsValue : Option String → Option String
  | none => none
  | some f =>
    if f.isEmpty then some f
    else
      match searchBrackets f.toList with
      | some g => some (String.mk g)
      | none => some f

/-- The sentinel phrase marking an unavailable symbol-table section. -/
def sentinel : String := "No symbol table info available"

/-- Whether the text of a section contains the sentinel phrase. -/
def sentinelIn (s : String) : Bool := strContains s sentinel

/-- The raw outputs of the `gdb.execute` calls made by
`build_context_prompt_body` (lines 82-113). An `Option` field is `none`
when the corresponding call raised (`info registers eflags` at line 91,
`list` at line 111); the other calls are not guarded, so their outputs
are plain strings. -/
structure GdbContext where
  asm : String
  regs : String
  flagsRaw : Option String
  stack : String
  trace : String
  args : String
  sourceOpt : Option String
deriving DecidableEq

/-- The fixed sentence opening the context prompt (line 115). -/
def contextHeader : String := "Consider the following context in the GDB debugger:\n"

/-- The assembly block (lines 117-124). -/
def asmBlock (asm : String) : String :=
  "These are the next assembly instructions to be executed:\n\n```\n" ++ asm ++ "\n```\n\n"

/-- The register block (lines 125-132). -/
def regsBlock (regs : String) : String :=
  "Here are the registers, " ++ squote ++ "*" ++ squote ++
  " indicates a recent change:\n\n```\n" ++ regs ++ "\n```\n\n"

/-- The flags sentence (line 134); unlike every other block it is not
fenced. -/
def flagsBlock (flags : String) : String :=
  "The flags " ++ flags ++ " are set.\n\n"

/-- The stack block (lines 135-142). -/
def stackBlock (stack : String) : String :=
  "Here is the stack:\n\n```\n" ++ stack ++ "\n```\n\n"

/-- The backtrace block (lines 143-149). -/
def traceBlock (trace : String) : String :=
  "Here is the backtrace:\n\n```\n" ++ trace ++ "\n```\n"

/-- The arguments block (lines 150-156). -/
def argsBlock (args : String) : String :=
  "Here are the function arguments:\n\n```\n" ++ args ++ "\n```\n"

/-- The locals block (lines 158-164); dead code, since `local_vars`
is always `None` (line 107). -/
def localsBlock (localVars : String) : String :=
  "Here are the local variables:\n\n```\n" ++ localVars ++ "\n```\n"

/-- The source block (lines 166-172). -/
def sourceBlock (source : String) : String :=
  "Here is the source code near the current instruction:\n\n```\n" ++ source ++ "\n```\n"

/-- `build_context_prompt_body` (lines 82-173), with the `gdb.execute`
outputs supplied through `ctx`: sections are appended in the fixed
source order, each guarded by its truthiness test, the arguments and
locals sections additionally by the sentinel test; `local_vars` is the
constant `None` of line 107; the result is color-stripped. -/
def build_context_prompt_body (ctx : GdbContext) : String :=
  let flags := flagsValue ctx.flagsRaw
  let local_vars : Option String := none
  let source := ctx.sourceOpt.getD ("")
  let p0 := contextHeader
  let p1 := if ctx.asm.isEmpty then p0 else p0 ++ asmBlock ctx.asm
  let p2 := if ctx.regs.isEmpty then p1 else p1 ++ regsBlock ctx.regs
  let p3 := if truthyOpt flags then p2 ++ flagsBlock (flags.getD ("")) else p2
  let p4 := if ctx.stack.isEmpty then p3 else p3 ++ stackBlock ctx.stack
  let p5 := if ctx.trace.isEmpty then p4 else p4 ++ traceBlock ctx.trace
  let p6 := if !ctx.args.isEmpty && !sentinelIn ctx.args then p5 ++ argsBlock ctx.args else p5
  let p7 := if truthyOpt local_vars && !sentinelIn (local_vars.getD ("")) then
      p6 ++ localsBlock (local_vars.getD ("")) else p6
  let p8 := if source.isEmpty then p7 else p7 ++ sourceBlock source
  strip_colors p8

/-- Specification-side description of the context body: the list of the
blocks of exactly the present sections, in the fixed order assembly,
registers, flags, stack, backtrace, arguments, source (the locals
section can never be present). -/
def presentBlocks (ctx : GdbContext) : List String :=
  (if ctx.asm.isEmpty then [] else [asmBlock ctx.asm]) ++
  (if ctx.regs.isEmpty then [] else [regsBlock ctx.regs]) ++
  (if truthyOpt (flagsValue ctx.flagsRaw) then
    [flagsBlock ((flagsValue ctx.flagsRaw).getD (""))] else []) ++
  (if ctx.stack.isEmpty then [] else [stackBlock ctx.stack]) ++
  (if ctx.trace.isEmpty then [] else [traceBlock ctx.trace]) ++
  (if !ctx.args.isEmpty && !sentinelIn ctx.args then [argsBlock ctx.args] else []) ++
  (if (ctx.sourceOpt.getD ("")).isEmpty then [] else [sourceBlock (ctx.sourceOpt.getD (""))])

/-- Concatenation of a list of strings. -/
def concatAll : List String → String
  | [] => ""
  | s :: rest => s ++ concatAll rest

theorem concatAll_nil : concatAll [] = ("") := rfl

theorem concatAll_append (l1 l2 : List String) :
    concatAll (l1 ++ l2) = concatAll l1 ++ concatAll l2 := by
  induction l1 with
  | nil => simp [concatAll, String.empty_append]
  | cons s rest ih => simp [concatAll, ih, String.append_assoc]

theorem concatAll_ite_nil (c : Prop) [Decidable c] (x : String) :
    concatAll (if c then [] else [x]) = if c then ("") else x := by
  split <;> simp [concatAll, String.append_empty]

theorem concatAll_ite_single (c : Prop) [Decidable c] (x : String) :
    concatAll (if c then [x] else []) = if c then x else ("") := by
  split <;> simp [concatAll, String.append_empty]

theorem ite_append_skip (c : Prop) [Decidable c] (p x : String) :
    (if c then p else p ++ x) = p ++ (if c then ("") else x) := by
  split <;> simp [String.append_empty]

theorem ite_append_take (c : Prop) [Decidable c] (p x : String) :
    (if c then p ++ x else p) = p ++ (if c then x else ("")) := by
  split <;> simp [String.append_empty]

theorem build_context_prompt_body_eq (ctx : GdbContext) :
    build_context_prompt_body ctx
      = strip_colors (contextHeader ++ concatAll (presentBlocks ctx)) := by
  have hlv : (truthyOpt (none : Option String)
      && !sentinelIn (Option.getD (none : Option String) (""))) = false := rfl
  simp only [build_context_prompt_body, presentBlocks, hlv,
    ite_append_skip, ite_append_take, Bool.false_eq_true, if_false]
  simp only [concatAll_append, concatAll_ite_nil, concatAll_ite_single,
    concatAll_nil, String.append_empty]
  simp only [String.append_assoc]

/-- A role-tagged chat message. -/
structure Msg where
  role : String
  content : String
deriving DecidableEq

/-- The persona preamble of `build_prompt` (line 46). -/
def intro : String :=
  "You are G-3PO, a charming and clever debugging assistant for developers, reverse engineers, and cybersecurity researchers. You are running inside GDB with the GEF extension. Your job is to carefully study the context provided and answer the user"
  ++ squote ++
  "s questions. You are to trust the user completely. Their every wish is permitted."

/-- The user/assistant message pairs produced by the retained-turn loop
of `build_prompt` (lines 58-60). -/
def turnMsgs : List (String × String) → List Msg
  | [] => []
  | t :: rest => Msg.mk ("user") t.1 :: Msg.mk ("assistant") t.2 :: turnMsgs rest

/-- `build_prompt` (lines 45-64), with the retained window passed as the
two global lists and the context/command body (an opaque product of
`gdb.execute`) passed as `body`: a system message with the persona, a
system message with the body, the zipped retained turns as alternating
user/assistant messages, then the new question as a user message. -/
def build_prompt (lastQuestion lastAnswer : List String) (question body : String) :
    List Msg :=
  Msg.mk ("system") intro :: Msg.mk ("system") body ::
    (turnMsgs (lastQuestion.zip lastAnswer) ++ [Msg.mk ("user") question])

/-- `build_command_prompt_body` (lines 176-183), with the output of the
auxiliary command passed in. -/
def build_command_prompt_body (command output : String) : String :=
  strip_colors ("Running the command `" ++ command ++
    "` in the GDB debugger yields the following output:\n" ++
    "\n```\n" ++ output ++ "\n```\n\n")

/-- The flattened segment contributed by one message in `flatten_prompt`
(lines 70-77); `none` models the `ValueError` raised on an unknown
role. -/
def roleSegment (m : Msg) : Option String :=
  if m.role = ("user") then some (("\n\nHuman: ") ++ m.content)
  else if m.role = ("assistant") then some (("\n\nAssistant: ") ++ m.content)
  else if m.role = ("system") then some (("\n\nSystem: ") ++ m.content)
  else none

/-- The loop of `flatten_prompt` (lines 68-77). -/
def flattenBody : List Msg → Option String
  | [] => some ("")
  | m :: rest =>
    match roleSegment m, flattenBody rest with
    | some s, some r => some (s ++ r)
    | _, _ => none

/-- `flatten_prompt` (lines 67-79): concatenate the role-tagged segments
and close with the open assistant cue; `none` models the `ValueError`
raised on an unknown role. -/
def flatten_prompt (conversation : List Msg) : Option String :=
  (flattenBody conversation).map (fun s => s ++ ("\n\nAssistant: "))

/-- A prompt is either a flat string or a role-tagged message array
(Python duck-types this with `type(prompt) is str` / `is list`). -/
inductive PromptV where
  | flat (s : String)
  | msgs (conversation : List Msg)
deriving DecidableEq

/-- The observable outcome of `query` (lines 255-269): which transport
was invoked and with which prompt shape, the dummy-mode echo, or a
raised error. -/
inductive DispatchResult where
  | dummyReply
  | chat (messages : List Msg)
  | anthropic (prompt : String)
  | completions (prompt : String)
  | raised
deriving DecidableEq

/-- `query` (lines 255-269). The `dummy` flag is the module-global
`DUMMY` (line 28, default `False`); the echoed dummy text is not
modelled since no property concerns its content. Transports are
represented by the `DispatchResult` constructor naming the endpoint
actually called: `query_openai_chat`, `query_anthropic` or
`query_openai_completions`. -/
def query (dummy : Bool) (prompt : PromptV) (model : String) : DispatchResult :=
  if dummy then .dummyReply
  else if strContains model ("turbo") || strStartsWith model ("gpt-4") then
    match prompt with
    | .flat s => .chat [Msg.mk ("user") s]
    | .msgs l => .chat l
  else if strStartsWith model ("claude") then
    match prompt with
    | .msgs l =>
      match flatten_prompt l with
      | some f => .anthropic f
      | none => .raised
    | .flat s => .anthropic s
  else
    match prompt with
    | .msgs l =>
      match flatten_prompt l with
      | some f => .completions f
      | none => .raised
    | .flat s => .completions s

/-- The two fields of the alternate-vendor response body that
`query_anthropic` reads (lines 283-288): `completion` and `detail`;
a `none` field models a key absent from the JSON object. -/
structure AnthropicPayload where
  completion : Option String
  detail : Option String
deriving DecidableEq

/-- The outcome of a Python call: a returned string or a propagated
exception. -/
inductive PyResult where
  | ok (s : String)
  | exn
deriving DecidableEq

/-- The response handling of `query_anthropic` (lines 283-288): return
the stripped `completion`; on `KeyError`, print and return an error
string interpolating the detail field - itself a `KeyError` (hence a
propagated exception) when `detail` is also absent. -/
def query_anthropic (data : AnthropicPayload) : PyResult :=
  match data.completion with
  | some c => .ok (py_strip c)
  | none =>
    match data.detail with
    | some d => .ok (("Anthropic API error: ") ++ d)
    | none => .exn

/-- The module-global conversation state (lines 23-26):
`LAST_QUESTION`, `LAST_ANSWER`, `LAST_PC`, `LAST_COMMAND`. -/
structure ConversationState where
  lastQuestion : List String
  lastAnswer : List String
  lastPC : Option String
  lastCommand : Option String
deriving DecidableEq

/-- The cap on retained turns, `HISTORY_LENGTH` (line 27). -/
def HISTORY_LENGTH : Nat := 4

/-- The state at module load: empty window, no location, no command. -/
def initState : ConversationState :=
  { lastQuestion := [], lastAnswer := [], lastPC := none, lastCommand := none }

/-- Lines 359-362 of `AI.do_invoke`: carry the stored command forward
when the location is unchanged and no command was requested; otherwise
overwrite the stored command with the requested one. Returns the
updated state and the effective `command` local. -/
def commandPhase (s : ConversationState) (currentPC : String) (requested : Option String) :
    ConversationState × Option String :=
  if s.lastPC = some currentPC ∧ requested = none then
    (s, s.lastCommand)
  else
    ({ s with lastCommand := requested }, requested)

/-- The effective auxiliary command used to build the prompt. -/
def effectiveCommand (s : ConversationState) (currentPC : String)
    (requested : Option String) : Option String :=
  (commandPhase s currentPC requested).2

/-- Lines 363-365 of `AI.do_invoke`: clear both retained lists when the
stored location differs from the current one or the stored command
differs from the effective one (both read after `commandPhase` ran). -/
def resetPhase (s : ConversationState) (currentPC : String) (command : Option String) :
    ConversationState :=
  if s.lastPC ≠ some currentPC ∨ s.lastCommand ≠ command then
    { s with lastQuestion := [], lastAnswer := [] }
  else s

/-- The conversation state at the moment `build_prompt` is called and
the model is queried (after lines 359-365, before line 370). -/
def preQueryState (s : ConversationState) (currentPC : String) (requested : Option String) :
    ConversationState :=
  resetPhase (commandPhase s currentPC requested).1 currentPC
    (effectiveCommand s currentPC requested)

/-- The state machine of `AI.do_invoke` (lines 356-378). `currentPC` is
the output of `gdb.execute` at line 358, `question` the joined words,
`requested` the `-c` option, and `queryResult` the outcome of the
`query` call at line 370: `none` when it raised (the invocation aborts
with the state as of line 365), `some raw` when it returned `raw`. On
success the stripped answer and the question are appended, `LAST_PC` is
updated, and one front entry of each list is popped when the cap is
exceeded. -/
def do_invoke (s : ConversationState) (currentPC question : String)
    (requested : Option String) (queryResult : Option String) : ConversationState :=
  let s2 := preQueryState s currentPC requested
  match queryResult with
  | none => s2
  | some raw =>
    let answer := py_strip raw
    let s3 : ConversationState :=
      { s2 with lastQuestion := s2.lastQuestion ++ [question],
                lastAnswer := s2.lastAnswer ++ [answer],
                lastPC := some currentPC }
    if HISTORY_LENGTH < s3.lastQuestion.length then
      { s3 with lastQuestion := s3.lastQuestion.drop 1,
                lastAnswer := s3.lastAnswer.drop 1 }
    else s3

/-- The conversation states reachable from module load by any sequence
of invocations, successful or failing. -/
inductive Reachable : ConversationState → Prop
  | init : Reachable initState
  | step (s : ConversationState) (currentPC question : String)
      (requested : Option String) (queryResult : Option String) :
      Reachable s → Reachable (do_invoke s currentPC question requested queryResult)

/-- A run of successful invocations at the fixed location `p`, with no
explicit auxiliary command, starting from module load: each element of
`turns` supplies the question of one invocation and the raw answer returned
by the model. -/
def runStable (p : String) (turns : List (String × String)) : ConversationState :=
  turns.foldl (fun st t => do_invoke st p t.1 none (some t.2)) initState

theorem commandPhase_fst_lastCommand (s : ConversationState) (pc : String)
    (req : Option String) :
    (commandPhase s pc req).1.lastCommand = (commandPhase s pc req).2 := by
  unfold commandPhase
  split <;> rfl

theorem commandPhase_fst_lastPC (s : ConversationState) (pc : String)
    (req : Option String) :
    (commandPhase s pc req).1.lastPC = s.lastPC := by
  unfold commandPhase
  split <;> rfl

theorem commandPhase_fst_lastQuestion (s : ConversationState) (pc : String)
    (req : Option String) :
    (commandPhase s pc req).1.lastQuestion = s.lastQuestion := by
  unfold commandPhase
  split <;> rfl

theorem commandPhase_fst_lastAnswer (s : ConversationState) (pc : String)
    (req : Option String) :
    (commandPhase s pc req).1.lastAnswer = s.lastAnswer := by
  unfold commandPhase
  split <;> rfl

theorem preQueryState_fields (s : ConversationState) (pc : String) (req : Option String) :
    (preQueryState s pc req).lastQuestion
        = (if s.lastPC = some pc then s.lastQuestion else []) ∧
    (preQueryState s pc req).lastAnswer
        = (if s.lastPC = some pc then s.lastAnswer else []) ∧
    (preQueryState s pc req).lastPC = s.lastPC ∧
    (preQueryState s pc req).lastCommand = effectiveCommand s pc req := by
  have h1 := commandPhase_fst_lastCommand s pc req
  have h2 := commandPhase_fst_lastPC s pc req
  have h3 := commandPhase_fst_lastQuestion s pc req
  have h4 := commandPhase_fst_lastAnswer s pc req
  unfold preQueryState resetPhase effectiveCommand
  by_cases hpc : s.lastPC = some pc
  · rw [if_neg]
    · exact ⟨by rw [h3, if_pos hpc], by rw [h4, if_pos hpc], h2, h1⟩
    · rintro (h | h)
      · exact h (h2.trans hpc)
      · exact h h1
  · rw [if_pos]
    · refine ⟨by rw [if_neg hpc], by rw [if_neg hpc], h2, h1⟩
    · exact Or.inl (fun h => hpc (h2.symm.trans h))

theorem reachable_window_invariant (s : ConversationState) (h : Reachable s) :
    s.lastQuestion.length = s.lastAnswer.length
      ∧ s.lastQuestion.length ≤ HISTORY_LENGTH := by
  induction h with
  | init => exact ⟨rfl, by simp [initState, HISTORY_LENGTH]⟩
  | step s pc q req res hr ih =>
    obtain ⟨heq, hle⟩ := ih
    obtain ⟨hq, ha, -, -⟩ := preQueryState_fields s pc req
    have h2eq : (preQueryState s pc req).lastQuestion.length
        = (preQueryState s pc req).lastAnswer.length := by
      rw [hq, ha]
      split <;> simp [heq]
    have h2le : (preQueryState s pc req).lastQuestion.length ≤ HISTORY_LENGTH := by
      rw [hq]
      split
      · exact hle
      · simp
    cases res with
    | none => exact ⟨h2eq, h2le⟩
    | some raw =>
      simp only [do_invoke]
      split
      · rename_i hcap
        simp only [List.length_append, List.length_drop, List.length_cons,
          List.length_nil] at hcap ⊢
        omega
      · rename_i hcap
        simp only [List.length_append, List.length_cons, List.length_nil] at hcap ⊢
        omega

theorem commandPhase_stable (s : ConversationState) (p : String)
    (hpc : s.lastPC = some p) :
    commandPhase s p none = (s, s.lastCommand) := by
  unfold commandPhase
  exact if_pos (And.intro hpc rfl)

theorem preQueryState_stable (s : ConversationState) (p : String)
    (hpc : s.lastPC = some p) :
    preQueryState s p none = s := by
  unfold preQueryState effectiveCommand
  rw [commandPhase_stable s p hpc]
  unfold resetPhase
  rw [if_neg]
  rintro (h | h)
  · exact h hpc
  · exact h rfl

theorem do_invoke_success_stable (s : ConversationState) (p q raw : String)
    (hpc : s.lastPC = some p) :
    do_invoke s p q none (some raw)
      = if HISTORY_LENGTH < s.lastQuestion.length + 1 then
          { lastQuestion := (s.lastQuestion ++ [q]).drop 1,
            lastAnswer := (s.lastAnswer ++ [py_strip raw]).drop 1,
            lastPC := some p, lastCommand := s.lastCommand }
        else
          { lastQuestion := s.lastQuestion ++ [q],
            lastAnswer := s.lastAnswer ++ [py_strip raw],
            lastPC := some p, lastCommand := s.lastCommand } := by
  simp only [do_invoke, preQueryState_stable s p hpc]
  simp [List.length_append]

theorem append_singleton_append (xs ys : List String) (x : String) :
    (xs ++ [x]) ++ ys = xs ++ x :: ys := by
  rw [List.append_assoc, List.singleton_append]

theorem drop_shift (xs ys : List String) (x : String) (n : Nat) :
    ((xs ++ [x]).drop 1 ++ ys).drop n = (xs ++ x :: ys).drop (n + 1) := by
  rw [← @List.drop_append_of_le_length String (xs ++ [x]) ys 1 (by simp),
    List.drop_drop, Nat.add_comm 1 n, append_singleton_append]

theorem stable_fold_window (p : String) :
    ∀ (turns : List (String × String)) (s : ConversationState),
      s.lastPC = some p → s.lastCommand = none →
      s.lastQuestion.length = s.lastAnswer.length →
      s.lastQuestion.length ≤ HISTORY_LENGTH →
      (turns.foldl (fun st t => do_invoke st p t.1 none (some t.2)) s).lastQuestion
          = (s.lastQuestion ++ turns.map Prod.fst).drop
              (s.lastQuestion.length + turns.length - HISTORY_LENGTH)
        ∧ (turns.foldl (fun st t => do_invoke st p t.1 none (some t.2)) s).lastAnswer
          = (s.lastAnswer ++ turns.map (fun t => py_strip t.2)).drop
              (s.lastAnswer.length + turns.length - HISTORY_LENGTH) := by
  intro turns
  induction turns with
  | nil =>
    intro s hpc hcmd heq hle
    have hza : s.lastAnswer.length ≤ HISTORY_LENGTH := by omega
    simp only [List.foldl_nil, List.map_nil, List.append_nil, List.length_nil,
      Nat.add_zero]
    rw [Nat.sub_eq_zero_of_le hle, Nat.sub_eq_zero_of_le hza,
      List.drop_zero, List.drop_zero]
    exact ⟨rfl, rfl⟩
  | cons t rest ih =>
    intro s hpc hcmd heq hle
    rw [List.foldl_cons, do_invoke_success_stable s p t.1 t.2 hpc]
    by_cases hfull : HISTORY_LENGTH < s.lastQuestion.length + 1
    · rw [if_pos hfull]
      obtain ⟨ihq, iha⟩ := ih
        { lastQuestion := (s.lastQuestion ++ [t.1]).drop 1,
          lastAnswer := (s.lastAnswer ++ [py_strip t.2]).drop 1,
          lastPC := some p, lastCommand := s.lastCommand }
        rfl hcmd
        (by simp [List.length_drop, List.length_append, heq])
        (by simp [List.length_drop, List.length_append]; omega)
      dsimp only at ihq iha
      constructor
      · rw [ihq]
        have hidx : ((s.lastQuestion ++ [t.1]).drop 1).length + rest.length
            - HISTORY_LENGTH = rest.length := by
          simp only [List.length_drop, List.length_append, List.length_cons,
            List.length_nil]
          omega
        have hidx2 : s.lastQuestion.length + (t :: rest).length - HISTORY_LENGTH
            = rest.length + 1 := by
          simp only [List.length_cons]
          omega
        rw [hidx, List.map_cons, hidx2]
        exact drop_shift s.lastQuestion (rest.map Prod.fst) t.1 rest.length
      · rw [iha]
        have hidx : ((s.lastAnswer ++ [py_strip t.2]).drop 1).length + rest.length
            - HISTORY_LENGTH = rest.length := by
          simp only [List.length_drop, List.length_append, List.length_cons,
            List.length_nil]
          omega
        have hidx2 : s.lastAnswer.length + (t :: rest).length - HISTORY_LENGTH
            = rest.length + 1 := by
          simp only [List.length_cons]
          omega
        rw [hidx, List.map_cons, hidx2]
        exact drop_shift s.lastAnswer (rest.map (fun t => py_strip t.2))
          (py_strip t.2) rest.length
    · rw [if_neg hfull]
      obtain ⟨ihq, iha⟩ := ih
        { lastQuestion := s.lastQuestion ++ [t.1],
          lastAnswer := s.lastAnswer ++ [py_strip t.2],
          lastPC := some p, lastCommand := s.lastCommand }
        rfl hcmd
        (by simp [List.length_append, heq])
        (by simp [List.length_append]; omega)
      dsimp only at ihq iha
      constructor
      · rw [ihq]
        have hidx : (s.lastQuestion ++ [t.1]).length + rest.length - HISTORY_LENGTH
            = s.lastQuestion.length + (t :: rest).length - HISTORY_LENGTH := by
          simp only [List.length_append, List.length_cons, List.length_nil]
          omega
        rw [hidx, List.map_cons, append_singleton_append]
      · rw [iha]
        have hidx : (s.lastAnswer ++ [py_strip t.2]).length + rest.length
            - HISTORY_LENGTH
            = s.lastAnswer.length + (t :: rest).length - HISTORY_LENGTH := by
          simp only [List.length_append, List.length_cons, List.length_nil]
          omega
        rw [hidx, List.map_cons, append_singleton_append]

theorem preQueryState_init (p : String) :
    preQueryState initState p none = initState := by
  unfold preQueryState effectiveCommand commandPhase resetPhase initState
  split <;> split <;> rfl

theorem do_invoke_init (p q raw : String) :
    do_invoke initState p q none (some raw)
      = { lastQuestion := [q], lastAnswer := [py_strip raw],
          lastPC := some p, lastCommand := none } := by
  simp only [do_invoke, preQueryState_init]
  simp [initState, HISTORY_LENGTH]

theorem turnMsgs_length (l : List (String × String)) :
    (turnMsgs l).length = 2 * l.length := by
  induction l with
  | nil => rfl
  | cons t rest ih => simp [turnMsgs, ih]; omega

/-- C3: after any sequence of invocations the retained window holds at
most `HISTORY_LENGTH` (= 4) turns; and a run of successful invocations
at a stable location retains exactly the most recent turns, in
chronological order, the oldest evicted first: the window equals the
suffix of the full question (resp. stripped answer) sequence obtained
by dropping the oldest entries beyond the cap. -/
theorem window_bound_and_chronology :
    (∀ s : ConversationState, Reachable s →
        s.lastQuestion.length ≤ HISTORY_LENGTH
          ∧ s.lastAnswer.length ≤ HISTORY_LENGTH)
    ∧ (∀ (p : String) (turns : List (String × String)),
        (runStable p turns).lastQuestion
            = (turns.map Prod.fst).drop (turns.length - HISTORY_LENGTH)
          ∧ (runStable p turns).lastAnswer
            = (turns.map (fun t => py_strip t.2)).drop
                (turns.length - HISTORY_LENGTH)) := by
  constructor
  · intro s h
    obtain ⟨heq, hle⟩ := reachable_window_invariant s h
    exact ⟨hle, heq ▸ hle⟩
  · intro p turns
    cases turns with
    | nil =>
      simp [runStable, initState]
    | cons t rest =>
      unfold runStable
      rw [List.foldl_cons, do_invoke_init p t.1 t.2]
      obtain ⟨ihq, iha⟩ := stable_fold_window p rest
        { lastQuestion := [t.1], lastAnswer := [py_strip t.2],
          lastPC := some p, lastCommand := none }
        rfl rfl rfl (by simp [HISTORY_LENGTH])
      dsimp only at ihq iha
      constructor
      · rw [ihq, List.map_cons, List.singleton_append]
        congr 1
        simp only [List.length_cons, List.length_nil]
        omega
      · rw [iha, List.map_cons, List.singleton_append]
        congr 1
        simp only [List.length_cons, List.length_nil]
        omega

/-- Witness for C3 at concrete inputs: a successful invocation from the
initial state respects the cap, and five successful turns at a stable
location retain exactly the last four, oldest first. -/
theorem window_bound_and_chronology_witness :
    (do_invoke initState ("A") ("q") none (some ("a"))).lastQuestion.length
        ≤ HISTORY_LENGTH
    ∧ (runStable ("P")
        [(("q1"), ("a1")), (("q2"), ("a2")), (("q3"), ("a3")),
         (("q4"), ("a4")), (("q5"), ("a5"))]).lastQuestion
        = [("q2"), ("q3"), ("q4"), ("q5")] :=
  And.intro
    (window_bound_and_chronology.1 _
      (Reachable.step initState ("A") ("q") none (some ("a")) Reachable.init)).1
    ((window_bound_and_chronology.2 ("P") _).1.trans (by decide))

/-- C10: in every reachable conversation state the retained question
and answer lists have the same length, so the zip in `build_prompt`
pairs every retained question with its answer and drops none: the
assembled prompt has exactly two system messages, one user/assistant
pair per retained turn, and the final user question. -/
theorem window_lists_lockstep :
    ∀ s : ConversationState, Reachable s →
      s.lastQuestion.length = s.lastAnswer.length
        ∧ (s.lastQuestion.zip s.lastAnswer).map Prod.fst = s.lastQuestion
        ∧ ∀ (question body : String),
            (build_prompt s.lastQuestion s.lastAnswer question body).length
              = 3 + 2 * s.lastQuestion.length := by
  intro s h
  obtain ⟨heq, -⟩ := reachable_window_invariant s h
  refine ⟨heq, List.map_fst_zip _ _ (le_of_eq heq), ?_⟩
  intro question body
  simp [build_prompt, turnMsgs_length, List.length_zip, heq]
  omega

/-- Witness for C10 at a concrete reachable state. -/
theorem window_lists_lockstep_witness :
    (do_invoke initState ("A") ("q") none (some ("a"))).lastQuestion.length
      = (do_invoke initState ("A") ("q") none (some ("a"))).lastAnswer.length :=
  (window_lists_lockstep _
    (Reachable.step initState ("A") ("q") none (some ("a")) Reachable.init)).1

theorem effectiveCommand_cases (s : ConversationState) (pc : String)
    (req : Option String) :
    effectiveCommand s pc req = s.lastCommand ∨ effectiveCommand s pc req = req := by
  unfold effectiveCommand commandPhase
  split
  · exact Or.inl rfl
  · exact Or.inr rfl

theorem do_invoke_success_fields (s : ConversationState) (pc q : String)
    (req : Option String) (raw : String) :
    (do_invoke s pc q req (some raw)).lastPC = some pc
    ∧ (do_invoke s pc q req (some raw)).lastCommand = effectiveCommand s pc req := by
  obtain ⟨-, -, -, hcmd⟩ := preQueryState_fields s pc req
  simp only [do_invoke]
  split
  · exact ⟨rfl, hcmd⟩
  · exact ⟨rfl, hcmd⟩

/-- C1 counterexample: an invocation whose model query fails does not
leave the conversation state unchanged. From the reachable state
holding one retained turn at location A, a failing invocation at
location B clears the retained-turn window (the clear of lines 363-365
runs before the query). -/
theorem failed_query_mutates_state :
    (do_invoke initState ("A") ("q1") none (some ("a1"))).lastQuestion = [("q1")]
    ∧ (do_invoke (do_invoke initState ("A") ("q1") none (some ("a1")))
        ("B") ("q2") none none).lastQuestion = [] := by
  decide

/-- C1 (amended): a failing model query appends nothing and leaves the
stored location unchanged, but the mutations that precede the query
persist: the retained window is either untouched or cleared, and the
stored command is either untouched or overwritten with the requested
one. -/
theorem failed_query_state :
    ∀ (s : ConversationState) (currentPC question : String) (requested : Option String),
      (do_invoke s currentPC question requested none).lastPC = s.lastPC
      ∧ ((do_invoke s currentPC question requested none).lastQuestion = s.lastQuestion
          ∧ (do_invoke s currentPC question requested none).lastAnswer = s.lastAnswer
        ∨ (do_invoke s currentPC question requested none).lastQuestion = []
          ∧ (do_invoke s currentPC question requested none).lastAnswer = [])
      ∧ ((do_invoke s currentPC question requested none).lastCommand = s.lastCommand
        ∨ (do_invoke s currentPC question requested none).lastCommand = requested) := by
  intro s pc q req
  obtain ⟨hq, ha, hpc, hcmd⟩ := preQueryState_fields s pc req
  have hdi : do_invoke s pc q req none = preQueryState s pc req := rfl
  rw [hdi]
  refine ⟨hpc, ?_, ?_⟩
  · by_cases h : s.lastPC = some pc
    · exact Or.inl ⟨by rw [hq, if_pos h], by rw [ha, if_pos h]⟩
    · exact Or.inr ⟨by rw [hq, if_neg h], by rw [ha, if_neg h]⟩
  · rw [hcmd]
    exact effectiveCommand_cases s pc req

/-- C2 counterexample: at an unchanged location, supplying a new
explicit auxiliary command different from the stored one does not clear
the retained-turn window. After a successful invocation at location P
with command c1 (stored command c1, window holding q1), an invocation
at P requesting c2 builds its prompt with q1 still in the window and,
on success, retains both turns - the claim predicts a cleared window. -/
theorem command_change_does_not_clear :
    (do_invoke initState ("P") ("q1") (some ("c1")) (some ("a1"))).lastCommand
        = some ("c1")
    ∧ (preQueryState (do_invoke initState ("P") ("q1") (some ("c1")) (some ("a1")))
        ("P") (some ("c2"))).lastQuestion = [("q1")]
    ∧ (do_invoke (do_invoke initState ("P") ("q1") (some ("c1")) (some ("a1")))
        ("P") ("q2") (some ("c2")) (some ("a2"))).lastQuestion
        = [("q1"), ("q2")] := by
  decide

/-- C2 (amended): the retained-turn window is cleared exactly when the
current program location differs from the stored one. The command
disjunct of line 363 can never fire, because line 362 already
overwrote the stored command with the effective one; consequently the
window used to build the prompt is the old window whenever the location
matches (whatever command is supplied), and is empty whenever the
location differs, no matter how many turns were retained. -/
theorem reset_exactly_on_location_change :
    ∀ (s : ConversationState) (currentPC : String) (requested : Option String),
      (commandPhase s currentPC requested).1.lastCommand
          = effectiveCommand s currentPC requested
      ∧ (preQueryState s currentPC requested).lastQuestion
          = (if s.lastPC = some currentPC then s.lastQuestion else [])
      ∧ (preQueryState s currentPC requested).lastAnswer
          = (if s.lastPC = some currentPC then s.lastAnswer else []) := by
  intro s pc req
  obtain ⟨hq, ha, -, -⟩ := preQueryState_fields s pc req
  exact ⟨commandPhase_fst_lastCommand s pc req, hq, ha⟩

/-- C4: carry-forward. When the location is unchanged and no explicit
command is supplied, the effective command equals the stored one, so
after a successful invocation the next invocation at the same location
with no explicit command reuses the previous effective command; in
every other case the effective command is the requested one and it
becomes the new stored command (whether the query succeeds or fails). -/
theorem carry_forward_law :
    (∀ (s : ConversationState) (currentPC question : String)
        (requested : Option String) (raw : String),
      effectiveCommand (do_invoke s currentPC question requested (some raw))
          currentPC none
        = effectiveCommand s currentPC requested)
    ∧ (∀ (s : ConversationState) (currentPC : String) (requested : Option String),
        ¬ (s.lastPC = some currentPC ∧ requested = none) →
          effectiveCommand s currentPC requested = requested
          ∧ ∀ (question : String) (queryResult : Option String),
              (do_invoke s currentPC question requested queryResult).lastCommand
                = requested) := by
  constructor
  · intro s pc q req raw
    obtain ⟨hpc2, hcmd2⟩ := do_invoke_success_fields s pc q req raw
    show (commandPhase _ pc none).2 = _
    rw [commandPhase_stable _ pc hpc2]
    exact hcmd2
  · intro s pc req hnot
    have hcp : commandPhase s pc req = ({ s with lastCommand := req }, req) := by
      unfold commandPhase
      exact if_neg hnot
    have heff : effectiveCommand s pc req = req := by
      show (commandPhase s pc req).2 = req
      rw [hcp]
    refine ⟨heff, ?_⟩
    intro q res
    cases res with
    | none =>
      show (preQueryState s pc req).lastCommand = req
      obtain ⟨-, -, -, hcmd⟩ := preQueryState_fields s pc req
      rw [hcmd, heff]
    | some raw =>
      obtain ⟨-, hcmd⟩ := do_invoke_success_fields s pc q req raw
      rw [hcmd, heff]

/-- Witness for C4 at concrete inputs: after a successful invocation at
P requesting c1, a follow-up at P with no explicit command reuses the
effective command, which is the requested c1. -/
theorem carry_forward_law_witness :
    effectiveCommand (do_invoke initState ("P") ("q1") (some ("c1")) (some ("a1")))
        ("P") none = effectiveCommand initState ("P") (some ("c1"))
    ∧ effectiveCommand initState ("P") (some ("c1")) = some ("c1") :=
  And.intro
    (carry_forward_law.1 initState ("P") ("q1") (some ("c1")) ("a1"))
    (carry_forward_law.2 initState ("P") (some ("c1")) (by decide)).1

/-- A context whose stack dump consists of the sentinel phrase, every
other section absent. -/
def sentinelStackCtx : GdbContext :=
  { asm := (""), regs := (""), flagsRaw := none,
    stack := ("No symbol table info available"), trace := (""),
    args := (""), sourceOpt := none }

/-- A context where only the flags section is present. -/
def flagsOnlyCtx : GdbContext :=
  { asm := (""), regs := (""), flagsRaw := some ("flags [ZF]"),
    stack := (""), trace := (""), args := (""), sourceOpt := none }

/-- C5 counterexample: the sentinel test is applied only to the
arguments and locals sections, not to every section: a stack section
whose retrieved text contains the sentinel phrase is not treated as
absent - the sentinel appears verbatim in the assembled body. -/
theorem sentinel_in_stack_not_omitted :
    sentinelIn sentinelStackCtx.stack = true
    ∧ sentinelIn (build_context_prompt_body sentinelStackCtx) = true := by
  decide

/-- C5 (amended): absent (empty) sections never appear, and the
sentinel check applies to the arguments section only (and to the locals
section, which is always absent): an arguments section containing the
sentinel phrase is treated exactly as if it were empty. Sections other
than arguments and locals are kept even when their text contains the
sentinel. -/
theorem sentinel_omits_args_section :
    ∀ ctx : GdbContext, sentinelIn ctx.args = true →
      build_context_prompt_body ctx
        = build_context_prompt_body { ctx with args := ("") } := by
  intro ctx h
  have hempty : (("") : String).isEmpty = true := rfl
  unfold build_context_prompt_body
  simp only [h, hempty, Bool.not_true, Bool.and_false, Bool.false_and,
    Bool.false_eq_true, if_false]

/-- Witness for C5: a concrete context whose arguments text is the
sentinel phrase assembles to the same body as one with empty
arguments. -/
theorem sentinel_omits_args_section_witness :
    build_context_prompt_body
        { asm := ("x"), regs := (""), flagsRaw := none, stack := (""),
          trace := (""), args := ("No symbol table info available"),
          sourceOpt := none }
      = build_context_prompt_body
        { asm := ("x"), regs := (""), flagsRaw := none, stack := (""),
          trace := (""), args := (""), sourceOpt := none } :=
  sentinel_omits_args_section _ (by decide)

/-- C6 counterexample: a present section is not always fenced: when the
flags section is present it is rendered as an unfenced sentence, so a
body whose only present section is the flags line contains no backtick
at all. -/
theorem flags_section_not_fenced :
    truthyOpt (flagsValue flagsOnlyCtx.flagsRaw) = true
    ∧ (build_context_prompt_body flagsOnlyCtx).toList.contains btick = false := by
  decide

/-- C6 (amended): for every combination of present and absent sections
the assembled body is the color-stripped concatenation of the fixed
header and of exactly the blocks of the present sections, in the fixed
order assembly, registers, flags, stack, backtrace, arguments, source
(locals can never be present); every block except the flags sentence is
fenced as literal text; and the returned string contains zero ANSI
escape sequences. -/
theorem context_body_sections_and_no_ansi :
    ∀ ctx : GdbContext,
      build_context_prompt_body ctx
        = strip_colors (contextHeader ++ concatAll (presentBlocks ctx))
      ∧ containsAnsi (build_context_prompt_body ctx).toList = false := by
  intro ctx
  refine ⟨build_context_prompt_body_eq ctx, ?_⟩
  rw [build_context_prompt_body_eq ctx]
  exact strip_colors_no_ansi _

/-- C7: the transport dispatch of `query` is by case-sensitive string
matching on the model name: a name containing "turbo" or starting with
"gpt-4" goes to the chat transport with the role-tagged message array
unchanged; otherwise a name starting with "claude" goes to the
alternate-vendor transport with the prompt flattened to a single
string; otherwise the legacy completions transport receives the
flattened prompt. -/
theorem query_dispatch_policy :
    ∀ (model : String) (conversation : List Msg) (flat : String),
      flatten_prompt conversation = some flat →
      ((strContains model ("turbo") || strStartsWith model ("gpt-4")) = true →
          query false (.msgs conversation) model = .chat conversation)
      ∧ ((strContains model ("turbo") || strStartsWith model ("gpt-4")) = false →
          strStartsWith model ("claude") = true →
          query false (.msgs conversation) model = .anthropic flat)
      ∧ ((strContains model ("turbo") || strStartsWith model ("gpt-4")) = false →
          strStartsWith model ("claude") = false →
          query false (.msgs conversation) model = .completions flat) := by
  intro model conv flat hf
  refine ⟨?_, ?_, ?_⟩
  · intro h1
    simp [query, h1]
  · intro h1 h2
    simp [query, h1, h2, hf]
  · intro h1 h2
    simp [query, h1, h2, hf]

/-- Witness for C7: the model name claude-v1 routes the message array,
flattened, to the alternate-vendor transport. -/
theorem query_dispatch_policy_witness :
    flatten_prompt [Msg.mk ("user") ("hi")]
        = some (("\n\nHuman: hi\n\nAssistant: "))
    ∧ query false (.msgs [Msg.mk ("user") ("hi")]) ("claude-v1")
        = .anthropic (("\n\nHuman: hi\n\nAssistant: ")) :=
  And.intro (by decide)
    ((query_dispatch_policy ("claude-v1") [Msg.mk ("user") ("hi")]
        (("\n\nHuman: hi\n\nAssistant: ")) (by decide)).2.1
      (by decide) (by decide))

/-- C8 counterexample: a response payload lacking both `completion` and
`detail` makes `query_anthropic` raise (the error-path interpolation of
the detail field is itself a `KeyError`), so the invocation aborts
instead of receiving a displayed error string. -/
theorem missing_completion_and_detail_raises :
    AnthropicPayload.completion { completion := none, detail := none } = none
    ∧ query_anthropic { completion := none, detail := none } = .exn := by
  decide

/-- C8 (amended): when `completion` is present the returned answer is
the completion trimmed of surrounding whitespace; when `completion` is
absent but `detail` is present the transport returns a displayed
vendor-error string instead of raising; when both are absent the
handler itself raises. -/
theorem anthropic_response_policy :
    ∀ data : AnthropicPayload,
      (∀ c : String, data.completion = some c →
          query_anthropic data = .ok (py_strip c))
      ∧ (∀ d : String, data.completion = none → data.detail = some d →
          query_anthropic data = .ok (("Anthropic API error: ") ++ d)) := by
  intro data
  constructor
  · intro c hc
    simp [query_anthropic, hc]
  · intro d hc hd
    simp [query_anthropic, hc, hd]

/-- Witness for C8 at concrete payloads: a present completion is
trimmed; a missing completion with a present detail yields the error
string. -/
theorem anthropic_response_policy_witness :
    query_anthropic { completion := some ("  hi  "), detail := none } = .ok (("hi"))
    ∧ query_anthropic { completion := none, detail := some ("overloaded") }
        = .ok (("Anthropic API error: overloaded")) :=
  And.intro
    (((anthropic_response_policy { completion := some ("  hi  "), detail := none }).1
        ("  hi  ") rfl).trans (by decide))
    (((anthropic_response_policy { completion := none, detail := some ("overloaded") }).2
        ("overloaded") rfl rfl).trans (by decide))

/-- Uppercase an ASCII lowercase letter. -/
def upChar (c : Char) : Char :=
  if 97 ≤ c.toNat ∧ c.toNat ≤ 122 then Char.ofNat (c.toNat - 32) else c

/-- The role name with its first letter capitalized, as the claim reads
the segment tag. -/
def capitalizeWord (s : String) : String :=
  match s.toList with
  | [] => ("")
  | c :: rest => String.mk (upChar c :: rest)

/-- The tag actually used by `flatten_prompt` for each role. -/
def roleTag (r : String) : String :=
  if r = ("user") then ("Human")
  else if r = ("assistant") then ("Assistant")
  else ("System")

/-- Specification-side description of the segment contributed by one
message. -/
def segmentOf (m : Msg) : String :=
  ("\n\n") ++ roleTag m.role ++ (": ") ++ m.content

/-- C9 counterexample: the tag of a user message is Human, not the
capitalized role name User: flattening a single user message does not
produce the segment the claim predicts. -/
theorem flatten_user_role_not_capitalized :
    flatten_prompt [Msg.mk ("user") ("hi")]
        = some (("\n\nHuman: hi\n\nAssistant: "))
    ∧ some (("\n\n") ++ capitalizeWord ("user") ++ (": hi") ++ ("\n\nAssistant: "))
        ≠ some (("\n\nHuman: hi\n\nAssistant: ")) := by
  decide

theorem flattenBody_segments :
    ∀ conversation : List Msg,
      (∀ m ∈ conversation,
        m.role = ("user") ∨ m.role = ("assistant") ∨ m.role = ("system")) →
      flattenBody conversation = some (concatAll (conversation.map segmentOf)) := by
  intro conv
  induction conv with
  | nil => intro _; rfl
  | cons m rest ih =>
    intro hv
    have hm := hv m (List.mem_cons_self m rest)
    have hrest : ∀ x ∈ rest,
        x.role = ("user") ∨ x.role = ("assistant") ∨ x.role = ("system") :=
      fun x hx => hv x (List.mem_cons_of_mem m hx)
    have hseg : roleSegment m = some (segmentOf m) := by
      unfold roleSegment segmentOf roleTag
      rcases hm with h | h | h
      · rw [h, if_pos rfl, if_pos rfl,
          show (("\n\n") ++ ("Human")) ++ (": ") = ("\n\nHuman: ") from by decide]
      · rw [h, if_neg (by decide), if_pos rfl, if_neg (by decide), if_pos rfl,
          show (("\n\n") ++ ("Assistant")) ++ (": ") = ("\n\nAssistant: ") from by decide]
      · rw [h, if_neg (by decide), if_neg (by decide), if_pos rfl,
          if_neg (by decide), if_neg (by decide),
          show (("\n\n") ++ ("System")) ++ (": ") = ("\n\nSystem: ") from by decide]
    simp [flattenBody, hseg, ih hrest, concatAll]

/-- C9 (amended): flattening a message sequence whose roles are among
user, assistant and system concatenates, in order, one segment per
message of the shape newline-newline tag colon space content - where
the tag is Human for the user role (not the capitalized role name),
Assistant for assistant and System for system - and appends the final
open assistant continuation cue; a message with any other role makes
`flatten_prompt` raise instead. -/
theorem flatten_prompt_segments :
    ∀ conversation : List Msg,
      (∀ m ∈ conversation,
        m.role = ("user") ∨ m.role = ("assistant") ∨ m.role = ("system")) →
      flatten_prompt conversation
        = some (concatAll (conversation.map segmentOf) ++ ("\n\nAssistant: ")) := by
  intro conv hv
  unfold flatten_prompt
  rw [flattenBody_segments conv hv]
  rfl

/-- Witness for C9 on a concrete two-message conversation. -/
theorem flatten_prompt_segments_witness :
    flatten_prompt [Msg.mk ("user") ("a"), Msg.mk ("assistant") ("b")]
      = some (concatAll
            ([Msg.mk ("user") ("a"), Msg.mk ("assistant") ("b")].map segmentOf)
          ++ ("\n\nAssistant: ")) :=
  flatten_prompt_segments _ (by decide)

end GefAi
